import Mathlib

/-!
# gateway-tic: Teleinfo frames republished as properties of a Thing

A shallow embedding of `main.go`: the frame ingestor (`readFrames`), the map
conversion (`convertMap`), the description builder (`setThings`), the
projector loop of `main`, and the startup sequence of `main`.

The frame source (`goteleinfo`), the Thing framework (`go-wot`, `eria-core`)
and the logger are collaborators whose code is outside the repository; they
appear here as the interface `main.go` consumes.
-/

namespace TicGateway

/-! ## Go values -/

/-- Go `map[string]α`, as the list of its entries in one iteration order of
`range`.  A Go map holds a key once: `GoMap.WF`. -/
abbrev GoMap (α : Type) := List (String × α)

namespace GoMap

/-- Keys of the map, in iteration order. -/
def keys {α : Type} (m : GoMap α) : List String := m.map Prod.fst

/-- Invariant of a Go map: no key occurs twice. -/
def WF {α : Type} (m : GoMap α) : Prop := m.keys.Nodup

instance {α : Type} (m : GoMap α) : Decidable m.WF :=
  inferInstanceAs (Decidable (m.keys.Nodup))

/-- Go `m[k]` as `v, ok := m[k]`. -/
def get {α : Type} : GoMap α → String → Option α
  | [], _ => none
  | (k', v') :: rest, k => if k' = k then some v' else get rest k

/-- Go `m[k] = v`: overwrites the entry of `k` or adds one. -/
def set {α : Type} : GoMap α → String → α → GoMap α
  | [], k, v => [(k, v)]
  | (k', v') :: rest, k, v => if k' = k then (k, v) :: rest else (k', v') :: set rest k v

end GoMap

/-- Go `interface{}` as `main.go` fills it: `convertMap` boxes strings only. -/
inductive Any where
  | str (s : String)
  deriving DecidableEq, Repr

/-- Width of Go's `int` and `uint` on the target, 32 or 64 bits. -/
inductive IntSize where
  | bits32
  | bits64
  deriving DecidableEq, Repr

/-- Number of bits of `int` and `uint`. -/
def IntSize.bits : IntSize → Nat
  | .bits32 => 32
  | .bits64 => 64

/-- Go conversion `int(v)` of a `uint`: the same bit pattern read in two's
complement. -/
def intOfUint (sz : IntSize) (v : Nat) : Int :=
  let u := v % 2 ^ sz.bits
  if u < 2 ^ (sz.bits - 1) then (u : Int) else (u : Int) - 2 ^ sz.bits

/-- What the build fixes: the width of `int`, and `eria.AppVersion`. -/
structure Build where
  intSize : IntSize
  appVersion : String
  deriving DecidableEq, Repr

/-! ## The frame source (goteleinfo) -/

/-- Failure of `Frame.GetUIntField`. -/
inductive FieldError where
  | fieldMissing
  | fieldNotNumeric
  deriving DecidableEq, Repr

instance : DecidableEq (Except FieldError Nat)
  | .ok a, .ok b => if h : a = b then isTrue (by rw [h]) else isFalse (by simpa using h)
  | .error a, .error b => if h : a = b then isTrue (by rw [h]) else isFalse (by simpa using h)
  | .ok _, .error _ => isFalse (by simp)
  | .error _, .ok _ => isFalse (by simp)

/-- The interface `teleinfo.Frame` as far as `main.go` calls it.  `Type_` is
the method `Type()` (the word is reserved in Lean).  `GetUIntField` returns
the `uint` or the error. -/
structure Frame where
  Type_ : String
  Mode : String
  GetMap : GoMap String
  GetUIntField : String → Except FieldError Nat

/-- Go `v, _ := frame.GetUIntField(name)`: the error is dropped.
Modelled from the spec: `GetUIntField` is goteleinfo code; the spec says the
value that comes with a failure is 0 ("0 on parse failure, error
discarded"). -/
def dropError : Except FieldError Nat → Nat
  | .ok v => v
  | .error _ => 0

/-- Modelled from the spec: goteleinfo's parse of a field as an unsigned
integer ("fails if field absent or non-numeric"): a non-empty string of
decimal digits whose value fits `uint`. -/
def parseUint (sz : IntSize) (s : String) : Option Nat :=
  if s.data = [] ∨ ¬ s.data.all Char.isDigit = true then none
  else
    let n := s.data.foldl (fun acc c => 10 * acc + (c.toNat - 48)) 0
    if n < 2 ^ sz.bits then some n else none

/-- Modelled from the spec: goteleinfo's `GetUIntField` over the field
mapping: `fieldMissing` when the name is absent, `fieldNotNumeric` when its
value does not parse. -/
def getUIntFieldOf (sz : IntSize) (fields : GoMap String) (name : String) :
    Except FieldError Nat :=
  match fields.get name with
  | none => .error .fieldMissing
  | some s =>
    match parseUint sz s with
    | none => .error .fieldNotNumeric
    | some v => .ok v

/-- Modelled from the spec: a goteleinfo frame, given by its field mapping
and the detected type and mode. -/
def Frame.ofFields (sz : IntSize) (ticType ticMode : String) (fields : GoMap String) : Frame :=
  { Type_ := ticType, Mode := ticMode, GetMap := fields,
    GetUIntField := getUIntFieldOf sz fields }

/-- Error of `Reader.ReadFrame`. -/
structure ReadError where
  msg : String
  deriving DecidableEq, Repr

/-! ## The Thing framework (go-wot, eria-core) -/

/-- Result of `dataSchema.NewObject(default)` and of
`dataSchema.NewInteger(default, unit, minimum, maximum)`. -/
inductive DataSchema where
  | object (default : GoMap Any)
  | integer (default : Int) (unit : String) (minimum maximum : Int)
  deriving DecidableEq, Repr

/-- Result of `interaction.NewProperty(key, title, description, readOnly,
writeOnly, observable, data)`. -/
structure Property where
  key : String
  title : String
  description : String
  readOnly : Bool
  writeOnly : Bool
  observable : Bool
  data : DataSchema
  deriving DecidableEq, Repr

/-- Same as `interaction.NewProperty`. -/
def NewProperty (key title description : String) (readOnly writeOnly observable : Bool)
    (data : DataSchema) : Property :=
  { key := key, title := title, description := description, readOnly := readOnly,
    writeOnly := writeOnly, observable := observable, data := data }

/-- The description `thing.Thing`: identification and the properties in the
order they were added. -/
structure Thing where
  id : String
  version : String
  title : String
  description : String
  types : List String
  properties : List Property
  deriving DecidableEq, Repr

/-- Modelled from the spec: `eria.NewThingDescription` is eria-core code;
"construction from (identifier, version, title, description, ...)", with no
property yet. -/
def NewThingDescription (id version title description : String) (types : List String) : Thing :=
  { id := id, version := version, title := title, description := description,
    types := types, properties := [] }

/-- Modelled from the spec: `Thing.AddProperty` is go-wot code; the
description holds "the ordered set of PropertySchemas". -/
def Thing.AddProperty (td : Thing) (property : Property) : Thing :=
  { td with properties := td.properties ++ [property] }

/-- Value of one property: "an arbitrary string-keyed mapping (raw snapshot)
or a bounded integer (derived field)". -/
inductive PropertyValue where
  | object (m : GoMap Any)
  | integer (i : Int)
  deriving DecidableEq, Repr

/-- One call `SetPropertyValue(name, value)`. -/
structure PropertyUpdate where
  name : String
  value : PropertyValue
  deriving DecidableEq, Repr

/-- The published thing: its description, the current value of each
property, and the `SetPropertyValue` calls received so far, oldest first. -/
structure EriaThing where
  td : Thing
  values : GoMap PropertyValue
  calls : List PropertyUpdate
  deriving DecidableEq, Repr

/-- Default value a schema carries. -/
def DataSchema.defaultValue : DataSchema → PropertyValue
  | .object d => .object d
  | .integer d _ _ _ => .integer d

/-- Modelled from the spec: `Server.AddThing` is eria-core code; the thing
is "created with that schema", every property holding its seed. -/
def AddThing (td : Thing) : EriaThing :=
  { td := td,
    values := td.properties.foldl (fun vs p => GoMap.set vs p.key p.data.defaultValue) [],
    calls := [] }

/-- Modelled from the spec: `EriaThing.SetPropertyValue` is eria-core code;
"each update overwrites the previous value", the description is "not mutated
after handoff". -/
def EriaThing.SetPropertyValue (t : EriaThing) (name : String) (value : PropertyValue) :
    EriaThing :=
  { t with values := GoMap.set t.values name value, calls := t.calls ++ [⟨name, value⟩] }

/-! ## main.go -/

/-- What `readFrames` acts on: the frames sent on `framesChan`, oldest first,
and the read errors it logged. -/
structure Ingest where
  framesChan : List Frame
  warnings : List ReadError

/-- The loop of `readFrames` over the results of its successive
`reader.ReadFrame()` calls: an error is logged and the loop continues, a
frame is sent on `framesChan`. -/
def readFrames : List (Except ReadError Frame) → Ingest → Ingest
  | [], st => st
  | .error err :: rest, st => readFrames rest { st with warnings := st.warnings ++ [err] }
  | .ok frame :: rest, st => readFrames rest { st with framesChan := st.framesChan ++ [frame] }

/-- Body of `convertMap`: `for key, value := range mapString` storing
`mapInterface[key] = value`. -/
def convertMap (mapString : GoMap String) : GoMap Any :=
  mapString.foldl (fun mapInterface kv => GoMap.set mapInterface kv.1 (Any.str kv.2)) []

/-- Body of `setThings`. -/
def setThings (b : Build) (frame : Frame) : Thing :=
  let ticType := frame.Type_
  let ticMode := frame.Mode
  let td := NewThingDescription "eria:gateway:tic" b.appVersion "Teleinfo" "Teleinfo gateway" []
  let rawData := DataSchema.object []
  let property := NewProperty "raw" "Raw data" "Raw data in json format" true false true rawData
  let td := td.AddProperty property
  if ticMode = "historic" then
    if ticType = "BASE" then
      let baseValue := dropError (frame.GetUIntField "BASE")
      let baseData := DataSchema.integer (intOfUint b.intSize baseValue) "KWh" 0 1000000000
      let baseProperty := NewProperty "indexBase" "BASE" "Index option Base" true false true baseData
      let td := td.AddProperty baseProperty
      let iinstValue := dropError (frame.GetUIntField "IINST")
      let iinstData := DataSchema.integer (intOfUint b.intSize iinstValue) "A" 0 1000
      let iinstProperty :=
        NewProperty "iinst" "IINST" "Intensité Instantanée" true false true iinstData
      let td := td.AddProperty iinstProperty
      let pappValue := dropError (frame.GetUIntField "PAPP")
      let pappData := DataSchema.integer (intOfUint b.intSize pappValue) "VA" 0 1000
      let pappProperty := NewProperty "papp" "PAPP" "Puissance apparente" true false true pappData
      td.AddProperty pappProperty
    else td
  else td

/-- Body of the projector loop of `main`, for one frame taken from
`framesChan`. -/
def projectFrame (b : Build) (eriaThing : EriaThing) (frame : Frame) : EriaThing :=
  let frameMap := frame.GetMap
  let f := convertMap frameMap
  let eriaThing := eriaThing.SetPropertyValue "raw" (.object f)
  let baseValue := dropError (frame.GetUIntField "BASE")
  let eriaThing := eriaThing.SetPropertyValue "indexBase" (.integer (intOfUint b.intSize baseValue))
  let iinstValue := dropError (frame.GetUIntField "IINST")
  let eriaThing := eriaThing.SetPropertyValue "iinst" (.integer (intOfUint b.intSize iinstValue))
  let pappValue := dropError (frame.GetUIntField "PAPP")
  eriaThing.SetPropertyValue "papp" (.integer (intOfUint b.intSize pappValue))

/-- The projector loop `for frame := range framesChan` over the frames it
receives, in order. -/
def projector (b : Build) (eriaThing : EriaThing) (frames : List Frame) : EriaThing :=
  frames.foldl (projectFrame b) eriaThing

/-- The calls `SetPropertyValue` that processing `frame` makes. -/
def published (b : Build) (frame : Frame) : List PropertyUpdate :=
  (projectFrame b { td := NewThingDescription "" "" "" "" [], values := [], calls := [] } frame).calls

/-- Values sent for property `name` among the calls `us`, in order. -/
def valuesFor (name : String) (us : List PropertyUpdate) : List PropertyValue :=
  (us.filter (fun u => u.name = name)).map PropertyUpdate.value

/-- Steps of `main` that the outside sees. -/
inductive Action where
  | eriaInit
  | loadConfig
  | openPort
  | printError
  | osExit (code : Nat)
  | portClose
  | newReader
  | readFrame
  | logPanic
  | newServer
  | setThings
  | addThing
  | makeChan (capacity : Nat)
  | goReadFrames
  | goProjector
  | startServer
  | logStopped
  deriving DecidableEq, Repr

/-- How a run of `main` ends: `os.Exit`, a panic, or serving the thing. -/
inductive Outcome where
  | exited (code : Nat)
  | panicked
  | serving (eriaThing : EriaThing)
  deriving DecidableEq, Repr

/-- Modelled from the spec: `zlog.Panic()...Msg` is zerolog code; a failed
startup read is "fatal — process must abort immediately": the call logs the
message and panics, so nothing after it in `main` runs. -/
def zlogPanicMsg (acts : List Action) : List Action := acts ++ [.logPanic]

/-- A run of `main`: its steps in order and how it ends. -/
structure Run where
  actions : List Action
  outcome : Outcome
  deriving DecidableEq, Repr

/-- Body of `main`, given the result of `teleinfo.OpenPort`, of the first
`reader.ReadFrame()` and of the reads `readFrames` makes afterwards.  After
the panic of `zlogPanicMsg` the deferred calls run (`port.Close()`, then the
log of the stop); `os.Exit` runs none.  In the serving outcome the thing is the one the
projector has updated with every frame that `readFrames` sent. -/
def main (b : Build) (port : Except String Unit) (first : Except ReadError Frame)
    (later : List (Except ReadError Frame)) : Run :=
  let acts : List Action := [.eriaInit, .loadConfig, .openPort]
  match port with
  | .error _ => { actions := acts ++ [.printError, .osExit 1], outcome := .exited 1 }
  | .ok _ =>
    let acts := acts ++ [.newReader, .readFrame]
    match first with
    | .error _ =>
      { actions := zlogPanicMsg acts ++ [.portClose, .logStopped], outcome := .panicked }
    | .ok initialFrame =>
      let td := setThings b initialFrame
      let eriaThing := AddThing td
      let sent := (readFrames later { framesChan := [], warnings := [] }).framesChan
      { actions := acts ++ [.newServer, .setThings, .addThing, .makeChan 10, .goReadFrames,
          .goProjector, .startServer],
        outcome := .serving (projector b eriaThing sent) }

/-! ## The schemas in the words of the specification -/

/-- Integer value `main.go` derives from a field: `int(v)` for
`v, _ := frame.GetUIntField(field)`. -/
def intField (b : Build) (frame : Frame) (field : String) : Int :=
  intOfUint b.intSize (dropError (frame.GetUIntField field))

/-- The `raw` property of the specification: open object schema, read-only,
observable. -/
def rawProperty : Property :=
  { key := "raw", title := "Raw data", description := "Raw data in json format",
    readOnly := true, writeOnly := false, observable := true, data := .object [] }

/-- The raw-only schema of the specification. -/
def rawOnlySchema : List Property := [rawProperty]

/-- The full schema of the specification: `raw`, then `indexBase` (KWh,
0 to 1000000000), `iinst` (A, 0 to 1000) and `papp` (VA, 0 to 1000), each
read-only and observable, with the given seeds. -/
def fullTariffSchema (seedBase seedIinst seedPapp : Int) : List Property :=
  [ rawProperty,
    { key := "indexBase", title := "BASE", description := "Index option Base",
      readOnly := true, writeOnly := false, observable := true,
      data := .integer seedBase "KWh" 0 1000000000 },
    { key := "iinst", title := "IINST", description := "Intensité Instantanée",
      readOnly := true, writeOnly := false, observable := true,
      data := .integer seedIinst "A" 0 1000 },
    { key := "papp", title := "PAPP", description := "Puissance apparente",
      readOnly := true, writeOnly := false, observable := true,
      data := .integer seedPapp "VA" 0 1000 } ]

/-- The fields the projector derives an integer property from, each with
the name of its property. -/
def derivedFields : List (String × String) :=
  [("BASE", "indexBase"), ("IINST", "iinst"), ("PAPP", "papp")]

/-- The frame `frame` with the result of `GetUIntField(field)` replaced by
`r`, everything else kept. -/
def Frame.withField (frame : Frame) (field : String) (r : Except FieldError Nat) : Frame :=
  { frame with GetUIntField := fun n => if n = field then r else frame.GetUIntField n }

/-- The successful reads among the results of `ReadFrame`, in order. -/
def successfulReads (results : List (Except ReadError Frame)) : List Frame :=
  results.filterMap Except.toOption

/-- The failed reads among the results of `ReadFrame`, in order. -/
def failedReads : List (Except ReadError Frame) → List ReadError
  | [] => []
  | .error err :: rest => err :: failedReads rest
  | .ok _ :: rest => failedReads rest

/-! ## Sample frames and builds -/

/-- A 64-bit build. -/
def build64 : Build := { intSize := .bits64, appVersion := "1.0.0" }

/-- A 32-bit build. -/
def build32 : Build := { intSize := .bits32, appVersion := "1.0.0" }

/-- A historic BASE frame as a meter sends it. -/
def sampleFrame : Frame :=
  Frame.ofFields .bits64 "BASE" "historic"
    [("ADCO", "012345678901"), ("OPTARIF", "BASE"), ("BASE", "001234567"),
     ("IINST", "003"), ("PAPP", "00720")]

/-- A frame of the same fields read in standard mode. -/
def standardFrame : Frame :=
  Frame.ofFields .bits64 "BASE" "standard"
    [("ADCO", "012345678901"), ("OPTARIF", "BASE"), ("BASE", "001234567"),
     ("IINST", "003"), ("PAPP", "00720")]

/-- A historic frame of the off-peak tariff, which has no BASE field. -/
def offPeakFrame : Frame :=
  Frame.ofFields .bits64 "HC.." "historic"
    [("ADCO", "012345678901"), ("OPTARIF", "HC.."), ("HCHC", "000111222"),
     ("HCHP", "000333444"), ("IINST", "0x3"), ("PAPP", "00720")]

/-- A historic BASE frame drawing 1500 VA. -/
def loadedFrame : Frame :=
  Frame.ofFields .bits64 "BASE" "historic"
    [("ADCO", "012345678901"), ("OPTARIF", "BASE"), ("BASE", "001234567"),
     ("IINST", "007"), ("PAPP", "01500")]

/-- A historic BASE frame whose BASE field is 2^63, read on a 64-bit
build. -/
def hugeFrame : Frame :=
  Frame.ofFields .bits64 "BASE" "historic"
    [("BASE", "9223372036854775808"), ("IINST", "003"), ("PAPP", "00720")]

/-- A historic BASE frame whose BASE field is 2^31, read on a 32-bit
build. -/
def hugeFrame32 : Frame :=
  Frame.ofFields .bits32 "BASE" "historic"
    [("BASE", "2147483648"), ("IINST", "003"), ("PAPP", "00720")]

/-! ## Lemmas -/

theorem GoMap.get_set {α : Type} (m : GoMap α) (k k' : String) (v : α) :
    (GoMap.set m k v).get k' = if k = k' then some v else m.get k' := by
  induction m with
  | nil =>
    by_cases h : k = k' <;> simp [GoMap.set, GoMap.get, h]
  | cons kv rest ih =>
    obtain ⟨k0, v0⟩ := kv
    by_cases h0 : k0 = k
    · subst h0
      by_cases h : k0 = k'
      · simp [GoMap.set, GoMap.get, h]
      · simp [GoMap.set, GoMap.get, h]
    · by_cases h1 : k0 = k'
      · subst h1
        have h : ¬ k = k0 := fun e => h0 e.symm
        simp [GoMap.set, GoMap.get, h0, h]
      · simp [GoMap.set, GoMap.get, h0, h1, ih]

theorem GoMap.set_append_new {α : Type} (m : GoMap α) (k : String) (v : α)
    (h : k ∉ m.keys) : GoMap.set m k v = m ++ [(k, v)] := by
  induction m with
  | nil => rfl
  | cons kv rest ih =>
    obtain ⟨k0, v0⟩ := kv
    simp [GoMap.keys] at h
    have h0 : ¬ k0 = k := fun e => h.1 e.symm
    have hr : k ∉ GoMap.keys rest := by
      simp [GoMap.keys]; exact h.2
    simp [GoMap.set, h0, ih hr]

theorem intOfUint_of_lt (sz : IntSize) (v : Nat) (h : v < 2 ^ (sz.bits - 1)) :
    intOfUint sz v = (v : Int) := by
  have hlt : v < 2 ^ sz.bits :=
    lt_of_lt_of_le h (Nat.pow_le_pow_right (by decide) (Nat.sub_le _ _))
  simp [intOfUint, Nat.mod_eq_of_lt hlt, h]

theorem intOfUint_of_ge (sz : IntSize) (v : Nat) (hge : 2 ^ (sz.bits - 1) ≤ v)
    (hlt : v < 2 ^ sz.bits) : intOfUint sz v = (v : Int) - 2 ^ sz.bits := by
  have hnot : ¬ v < 2 ^ (sz.bits - 1) := Nat.not_lt.mpr hge
  simp [intOfUint, Nat.mod_eq_of_lt hlt, hnot]

theorem intField_of_ok (b : Build) (frame : Frame) (field : String) (v : Nat)
    (hv : frame.GetUIntField field = .ok v) :
    (v < 2 ^ (b.intSize.bits - 1) → intField b frame field = (v : Int)) ∧
      (2 ^ (b.intSize.bits - 1) ≤ v → v < 2 ^ b.intSize.bits →
        intField b frame field = (v : Int) - 2 ^ b.intSize.bits) := by
  simp only [intField, hv, dropError]
  exact ⟨fun h => intOfUint_of_lt _ _ h, fun hge hlt => intOfUint_of_ge _ _ hge hlt⟩

theorem projectFrame_calls (b : Build) (t : EriaThing) (frame : Frame) :
    (projectFrame b t frame).calls = t.calls ++
      [⟨"raw", .object (convertMap frame.GetMap)⟩,
       ⟨"indexBase", .integer (intOfUint b.intSize (dropError (frame.GetUIntField "BASE")))⟩,
       ⟨"iinst", .integer (intOfUint b.intSize (dropError (frame.GetUIntField "IINST")))⟩,
       ⟨"papp", .integer (intOfUint b.intSize (dropError (frame.GetUIntField "PAPP")))⟩] := by
  simp [projectFrame, EriaThing.SetPropertyValue]

theorem published_eq (b : Build) (frame : Frame) :
    published b frame =
      [⟨"raw", .object (convertMap frame.GetMap)⟩,
       ⟨"indexBase", .integer (intOfUint b.intSize (dropError (frame.GetUIntField "BASE")))⟩,
       ⟨"iinst", .integer (intOfUint b.intSize (dropError (frame.GetUIntField "IINST")))⟩,
       ⟨"papp", .integer (intOfUint b.intSize (dropError (frame.GetUIntField "PAPP")))⟩] := by
  simp [published, projectFrame_calls]

theorem projectFrame_calls_published (b : Build) (t : EriaThing) (frame : Frame) :
    (projectFrame b t frame).calls = t.calls ++ published b frame := by
  rw [projectFrame_calls, published_eq]

theorem projectFrame_td (b : Build) (t : EriaThing) (frame : Frame) :
    (projectFrame b t frame).td = t.td := by
  simp [projectFrame, EriaThing.SetPropertyValue]

theorem projector_td (b : Build) (frames : List Frame) (t : EriaThing) :
    (projector b t frames).td = t.td := by
  induction frames generalizing t with
  | nil => rfl
  | cons f rest ih =>
    show (projector b (projectFrame b t f) rest).td = t.td
    rw [ih, projectFrame_td]

theorem projector_append (b : Build) (t : EriaThing) (xs ys : List Frame) :
    projector b t (xs ++ ys) = projector b (projector b t xs) ys := by
  simp [projector, List.foldl_append]

theorem projectFrame_values_get (b : Build) (t : EriaThing) (frame : Frame) (k : String) :
    (projectFrame b t frame).values.get k =
      if "papp" = k then
        some (.integer (intOfUint b.intSize (dropError (frame.GetUIntField "PAPP"))))
      else if "iinst" = k then
        some (.integer (intOfUint b.intSize (dropError (frame.GetUIntField "IINST"))))
      else if "indexBase" = k then
        some (.integer (intOfUint b.intSize (dropError (frame.GetUIntField "BASE"))))
      else if "raw" = k then some (.object (convertMap frame.GetMap))
      else t.values.get k := by
  simp [projectFrame, EriaThing.SetPropertyValue, GoMap.get_set]

theorem convertMap_fold (m : GoMap String) (acc : GoMap Any)
    (h : (acc.keys ++ m.keys).Nodup) :
    m.foldl (fun mapInterface kv => GoMap.set mapInterface kv.1 (Any.str kv.2)) acc =
      acc ++ m.map (fun kv => (kv.1, Any.str kv.2)) := by
  induction m generalizing acc with
  | nil => simp
  | cons kv rest ih =>
    obtain ⟨k, v⟩ := kv
    have hk : k ∉ acc.keys := by
      intro hmem
      have := List.nodup_append.mp h
      exact this.2.2 hmem (by simp [GoMap.keys])
    have hnd : ((acc ++ [(k, Any.str v)]).keys ++ GoMap.keys rest).Nodup := by
      simpa [GoMap.keys, List.append_assoc] using h
    simp only [List.foldl_cons, GoMap.set_append_new acc k (Any.str v) hk]
    rw [ih _ hnd]
    simp

theorem convertMap_eq_map (m : GoMap String) (h : m.WF) :
    convertMap m = m.map (fun kv => (kv.1, Any.str kv.2)) := by
  have := convertMap_fold m [] (by simpa [GoMap.keys, GoMap.WF] using h)
  simpa [convertMap] using this

theorem GoMap.get_map_str (m : GoMap String) (k : String) :
    GoMap.get (m.map (fun kv => (kv.1, Any.str kv.2))) k = (m.get k).map Any.str := by
  induction m with
  | nil => rfl
  | cons kv rest ih =>
    obtain ⟨k0, v0⟩ := kv
    by_cases h : k0 = k <;> simp [GoMap.get, h, ih]

theorem readFrames_spec (results : List (Except ReadError Frame)) (st : Ingest) :
    (readFrames results st).framesChan = st.framesChan ++ successfulReads results ∧
      (readFrames results st).warnings = st.warnings ++ failedReads results := by
  induction results generalizing st with
  | nil => simp [readFrames, successfulReads, failedReads]
  | cons r rest ih =>
    cases r with
    | error err =>
      have := ih { st with warnings := st.warnings ++ [err] }
      simp [readFrames, successfulReads, failedReads, Except.toOption] at this ⊢
      exact this
    | ok frame =>
      have := ih { st with framesChan := st.framesChan ++ [frame] }
      simp [readFrames, successfulReads, failedReads, Except.toOption] at this ⊢
      exact this

/-! ## The description builder -/

theorem setThings_properties_full (b : Build) (frame : Frame)
    (hMode : frame.Mode = "historic") (hType : frame.Type_ = "BASE") :
    (setThings b frame).properties =
      fullTariffSchema (intField b frame "BASE") (intField b frame "IINST")
        (intField b frame "PAPP") := by
  simp [setThings, hMode, hType, fullTariffSchema, rawProperty, intField, NewProperty,
    NewThingDescription, Thing.AddProperty]

theorem setThings_properties_raw (b : Build) (frame : Frame)
    (h : ¬ (frame.Mode = "historic" ∧ frame.Type_ = "BASE")) :
    (setThings b frame).properties = rawOnlySchema := by
  by_cases hm : frame.Mode = "historic"
  · have ht : ¬ frame.Type_ = "BASE" := fun ht => h ⟨hm, ht⟩
    simp [setThings, hm, ht, rawOnlySchema, rawProperty, NewProperty, NewThingDescription,
      Thing.AddProperty]
  · simp [setThings, hm, rawOnlySchema, rawProperty, NewProperty, NewThingDescription,
      Thing.AddProperty]

/-- C1 as stated fails: for the historic BASE frame whose BASE field is
9223372036854775808, which parses as that unsigned integer on a 64-bit build,
`setThings` seeds indexBase with -9223372036854775808, not with the frame's
BASE value; on a 32-bit build the BASE field 2147483648 gives the seed
-2147483648. -/
theorem setThings_seed_wraps :
    (hugeFrame.Mode = "historic" ∧ hugeFrame.Type_ = "BASE" ∧
        hugeFrame.GetUIntField "BASE" = .ok 9223372036854775808 ∧
        (setThings build64 hugeFrame).properties =
          fullTariffSchema (-9223372036854775808) 3 720 ∧
        (setThings build64 hugeFrame).properties ≠
          fullTariffSchema 9223372036854775808 3 720) ∧
      (hugeFrame32.Mode = "historic" ∧ hugeFrame32.Type_ = "BASE" ∧
        hugeFrame32.GetUIntField "BASE" = .ok 2147483648 ∧
        (setThings build32 hugeFrame32).properties = fullTariffSchema (-2147483648) 3 720 ∧
        (setThings build32 hugeFrame32).properties ≠ fullTariffSchema 2147483648 3 720) := by
  decide

/-- C1, as amended: for every frame whose mode is "historic" and whose type
is "BASE", `setThings` returns a description of exactly four properties, in
the order raw, indexBase, iinst, papp: indexBase an integer in KWh with
bounds 0 and 1000000000, iinst an integer in A with bounds 0 and 1000, papp
an integer in VA with bounds 0 and 1000.  The seed of each is the Go
conversion `int(v)` of the value v of the frame's BASE, IINST and PAPP
field: v itself when v is below 2^(n-1), and v - 2^n when v is from 2^(n-1)
to 2^n - 1, n being the width of `int`. -/
theorem setThings_historic_base (b : Build) (frame : Frame)
    (hMode : frame.Mode = "historic") (hType : frame.Type_ = "BASE") :
    (∃ seedBase seedIinst seedPapp : Int,
        (setThings b frame).properties = fullTariffSchema seedBase seedIinst seedPapp ∧
        (∀ v, frame.GetUIntField "BASE" = .ok v →
          (v < 2 ^ (b.intSize.bits - 1) → seedBase = (v : Int)) ∧
          (2 ^ (b.intSize.bits - 1) ≤ v → v < 2 ^ b.intSize.bits →
            seedBase = (v : Int) - 2 ^ b.intSize.bits)) ∧
        (∀ v, frame.GetUIntField "IINST" = .ok v →
          (v < 2 ^ (b.intSize.bits - 1) → seedIinst = (v : Int)) ∧
          (2 ^ (b.intSize.bits - 1) ≤ v → v < 2 ^ b.intSize.bits →
            seedIinst = (v : Int) - 2 ^ b.intSize.bits)) ∧
        (∀ v, frame.GetUIntField "PAPP" = .ok v →
          (v < 2 ^ (b.intSize.bits - 1) → seedPapp = (v : Int)) ∧
          (2 ^ (b.intSize.bits - 1) ≤ v → v < 2 ^ b.intSize.bits →
            seedPapp = (v : Int) - 2 ^ b.intSize.bits))) ∧
      (setThings b frame).properties.map Property.key = ["raw", "indexBase", "iinst", "papp"] ∧
      (setThings b frame).properties.length = 4 := by
  rw [setThings_properties_full b frame hMode hType]
  exact ⟨⟨_, _, _, rfl, fun v hv => intField_of_ok b frame "BASE" v hv,
    fun v hv => intField_of_ok b frame "IINST" v hv,
    fun v hv => intField_of_ok b frame "PAPP" v hv⟩, rfl, rfl⟩

/-- Witness of C1 as amended, on the sample frame of a meter: seeds 1234567,
3 and 720; and on the frame whose BASE is 2^63 on a 64-bit build: seed
2^63 - 2^64. -/
theorem setThings_historic_base_witness :
    sampleFrame.Mode = "historic" ∧ sampleFrame.Type_ = "BASE" ∧
      (setThings build64 sampleFrame).properties = fullTariffSchema 1234567 3 720 ∧
      (setThings build64 hugeFrame).properties =
        fullTariffSchema (-9223372036854775808) 3 720 := by
  refine ⟨by decide, by decide, ?_, ?_⟩
  · obtain ⟨sb, si, sp, hprops, hB, hI, hP⟩ :=
      (setThings_historic_base build64 sampleFrame (by decide) (by decide)).1
    have h1 := (hB 1234567 (by decide)).1 (by decide)
    have h2 := (hI 3 (by decide)).1 (by decide)
    have h3 := (hP 720 (by decide)).1 (by decide)
    rw [hprops, h1, h2, h3]
    decide
  · obtain ⟨sb, si, sp, hprops, hB, hI, hP⟩ :=
      (setThings_historic_base build64 hugeFrame (by decide) (by decide)).1
    have h1 := (hB 9223372036854775808 (by decide)).2 (by decide) (by decide)
    have h2 := (hI 3 (by decide)).1 (by decide)
    have h3 := (hP 720 (by decide)).1 (by decide)
    rw [hprops, h1, h2, h3]
    decide

/-- C2: for every frame whose (mode, type) pair is not ("historic", "BASE"),
`setThings` returns a description whose only property is raw (open object
schema, read-only, observable); it has no indexBase, iinst or papp. -/
theorem setThings_raw_only (b : Build) (frame : Frame)
    (h : ¬ (frame.Mode = "historic" ∧ frame.Type_ = "BASE")) :
    (setThings b frame).properties = rawOnlySchema ∧
      (setThings b frame).properties.map Property.key = ["raw"] ∧
      (∀ p ∈ (setThings b frame).properties,
        p.key ≠ "indexBase" ∧ p.key ≠ "iinst" ∧ p.key ≠ "papp" ∧
          p.data = .object [] ∧ p.readOnly = true ∧ p.observable = true) := by
  rw [setThings_properties_raw b frame h]
  simp [rawOnlySchema, rawProperty]

/-- Witness of C2 on two frames: type "BASE" read in standard mode, and
historic mode with the off-peak tariff. -/
theorem setThings_raw_only_witness :
    ¬ (standardFrame.Mode = "historic" ∧ standardFrame.Type_ = "BASE") ∧
      (setThings build64 standardFrame).properties = rawOnlySchema ∧
      (setThings build64 offPeakFrame).properties = rawOnlySchema :=
  ⟨by decide, (setThings_raw_only build64 standardFrame (by decide)).1,
    (setThings_raw_only build64 offPeakFrame (by decide)).1⟩

/-! ## The ingestor -/

/-- C6: for every finite sequence of `ReadFrame` results, the frames
`readFrames` sends on `framesChan` are exactly the successful reads, in the
order read: a failed read sends nothing (it is logged) and the loop goes on,
a successful read sends its frame once. -/
theorem readFrames_sends_successes (results : List (Except ReadError Frame)) :
    (readFrames results { framesChan := [], warnings := [] }).framesChan =
        successfulReads results ∧
      (readFrames results { framesChan := [], warnings := [] }).warnings =
        failedReads results ∧
      (∀ (before after : List (Except ReadError Frame)) (err : ReadError),
        (readFrames (before ++ .error err :: after) { framesChan := [], warnings := [] }).framesChan =
          (readFrames (before ++ after) { framesChan := [], warnings := [] }).framesChan) ∧
      (∀ (before after : List (Except ReadError Frame)) (frame : Frame),
        (readFrames (before ++ .ok frame :: after) { framesChan := [], warnings := [] }).framesChan =
          successfulReads before ++ frame :: successfulReads after) := by
  refine ⟨?_, ?_, ?_, ?_⟩
  · simpa using (readFrames_spec results { framesChan := [], warnings := [] }).1
  · simpa using (readFrames_spec results { framesChan := [], warnings := [] }).2
  · intro before after err
    simp [(readFrames_spec _ _).1, successfulReads, List.filterMap_append, Except.toOption]
  · intro before after frame
    simp [(readFrames_spec _ _).1, successfulReads, List.filterMap_append, Except.toOption]

/-! ## The projector -/

theorem valuesFor_published (b : Build) (frame : Frame) (field prop : String)
    (hp : (field, prop) ∈ derivedFields) :
    valuesFor prop (published b frame) = [.integer (intField b frame field)] := by
  simp only [derivedFields, List.mem_cons, Prod.mk.injEq, List.mem_singleton,
    List.not_mem_nil, or_false] at hp
  rcases hp with ⟨rfl, rfl⟩ | ⟨rfl, rfl⟩ | ⟨rfl, rfl⟩ <;>
    simp [published_eq, valuesFor, intField, List.filter]

theorem valuesFor_raw_published (b : Build) (frame : Frame) :
    valuesFor "raw" (published b frame) = [.object (convertMap frame.GetMap)] := by
  simp [published_eq, valuesFor, List.filter]

/-- C3, as amended: for every frame in which field BASE (respectively IINST,
PAPP) parses as an unsigned integer v, the projector publishes for indexBase
(respectively iinst, papp) the Go conversion `int(v)`: v itself for every v
below 2^(n-1), and v - 2^n for every v from 2^(n-1) to 2^n - 1, n being the
width of `int` and `uint`. -/
theorem published_int_of_field (b : Build) (frame : Frame) (field prop : String)
    (hp : (field, prop) ∈ derivedFields) (v : Nat)
    (hv : frame.GetUIntField field = .ok v) :
    (v < 2 ^ (b.intSize.bits - 1) →
        valuesFor prop (published b frame) = [.integer (v : Int)]) ∧
      (2 ^ (b.intSize.bits - 1) ≤ v → v < 2 ^ b.intSize.bits →
        valuesFor prop (published b frame) = [.integer ((v : Int) - 2 ^ b.intSize.bits)]) := by
  have h := valuesFor_published b frame field prop hp
  have hf := intField_of_ok b frame field v hv
  refine ⟨fun hr => ?_, fun hge hlt => ?_⟩
  · rw [h, hf.1 hr]
  · rw [h, hf.2 hge hlt]

/-- Witness of C3 as amended: on the sample frame BASE 001234567 is published
as 1234567; on a 32-bit build BASE 2147483648 is published as
2147483648 - 2^32, which is -2147483648. -/
theorem published_int_of_field_witness :
    sampleFrame.GetUIntField "BASE" = .ok 1234567 ∧
      valuesFor "indexBase" (published build64 sampleFrame) = [.integer 1234567] ∧
      hugeFrame32.GetUIntField "BASE" = .ok 2147483648 ∧
      valuesFor "indexBase" (published build32 hugeFrame32) = [.integer (-2147483648)] :=
  ⟨by decide,
    (published_int_of_field build64 sampleFrame "BASE" "indexBase" (by decide) 1234567
      (by decide)).1 (by decide),
    by decide,
    ((published_int_of_field build32 hugeFrame32 "BASE" "indexBase" (by decide) 2147483648
      (by decide)).2 (by decide) (by decide)).trans (by decide)⟩

/-- C3 as stated fails: on a 64-bit build, the BASE field 9223372036854775808
parses as that unsigned integer and indexBase is published as
-9223372036854775808; on a 32-bit build, the BASE field 2147483648 parses as
that unsigned integer and indexBase is published as -2147483648. -/
theorem published_int_wraps :
    (hugeFrame.GetUIntField "BASE" = .ok 9223372036854775808 ∧
        valuesFor "indexBase" (published build64 hugeFrame) =
          [.integer (-9223372036854775808)] ∧
        valuesFor "indexBase" (published build64 hugeFrame) ≠
          [.integer 9223372036854775808]) ∧
      (hugeFrame32.GetUIntField "BASE" = .ok 2147483648 ∧
        valuesFor "indexBase" (published build32 hugeFrame32) = [.integer (-2147483648)] ∧
        valuesFor "indexBase" (published build32 hugeFrame32) ≠ [.integer 2147483648]) := by
  decide

/-- C4: for every frame the projector makes the four updates raw, indexBase,
iinst, papp; raw is the whole field mapping; the integer published for a
field that is missing or non-numeric is 0; and replacing the result of one
field's parse (by a failure, or by anything else) changes no other update. -/
theorem published_on_parse_failure (b : Build) (frame : Frame) :
    (published b frame).map PropertyUpdate.name = ["raw", "indexBase", "iinst", "papp"] ∧
      valuesFor "raw" (published b frame) = [.object (convertMap frame.GetMap)] ∧
      (∀ field prop, (field, prop) ∈ derivedFields → ∀ e : FieldError,
        frame.GetUIntField field = .error e →
          valuesFor prop (published b frame) = [.integer 0]) ∧
      (∀ field prop, (field, prop) ∈ derivedFields → ∀ (r : Except FieldError Nat) (other : String),
        other ≠ prop →
          valuesFor other (published b (frame.withField field r)) =
            valuesFor other (published b frame)) := by
  refine ⟨by simp [published_eq], valuesFor_raw_published b frame, ?_, ?_⟩
  · intro field prop hp e he
    have h := valuesFor_published b frame field prop hp
    simp only [intField, he, dropError] at h
    rw [h]
    cases b.intSize <;> simp [intOfUint, IntSize.bits]
  · intro field prop hp r other hne
    simp only [derivedFields, List.mem_cons, Prod.mk.injEq, List.mem_singleton,
      List.not_mem_nil, or_false] at hp
    rcases hp with ⟨rfl, rfl⟩ | ⟨rfl, rfl⟩ | ⟨rfl, rfl⟩ <;>
      simp [published_eq, valuesFor, List.filter, Frame.withField, hne.symm]

/-- Witness of C4 on the off-peak frame, where BASE is missing and IINST is
not numeric: indexBase and iinst are published as 0, papp as 720, raw in
full. -/
theorem published_on_parse_failure_witness :
    offPeakFrame.GetUIntField "BASE" = .error .fieldMissing ∧
      offPeakFrame.GetUIntField "IINST" = .error .fieldNotNumeric ∧
      valuesFor "indexBase" (published build64 offPeakFrame) = [.integer 0] ∧
      valuesFor "iinst" (published build64 offPeakFrame) = [.integer 0] ∧
      valuesFor "papp" (published build64 offPeakFrame) = [.integer 720] ∧
      valuesFor "raw" (published build64 offPeakFrame) =
        [.object (convertMap offPeakFrame.GetMap)] :=
  ⟨by decide, by decide,
    (published_on_parse_failure build64 offPeakFrame).2.2.1 "BASE" "indexBase" (by decide)
      .fieldMissing (by decide),
    (published_on_parse_failure build64 offPeakFrame).2.2.1 "IINST" "iinst" (by decide)
      .fieldNotNumeric (by decide),
    by decide,
    (published_on_parse_failure build64 offPeakFrame).2.1⟩

/-- C5: for every frame, the value published for raw is `convertMap` of the
frame's field mapping, which has the same keys and, for every key, the same
string value as the mapping (and is empty for the empty mapping), whatever
`GetUIntField` returns for BASE, IINST and PAPP. -/
theorem raw_is_field_mapping (b : Build) (frame : Frame) (h : frame.GetMap.WF) :
    valuesFor "raw" (published b frame) = [.object (convertMap frame.GetMap)] ∧
      (convertMap frame.GetMap).keys = frame.GetMap.keys ∧
      (∀ k, (convertMap frame.GetMap).get k = (frame.GetMap.get k).map Any.str) ∧
      (convertMap frame.GetMap).WF ∧
      convertMap [] = [] := by
  have hk : (convertMap frame.GetMap).keys = frame.GetMap.keys := by
    rw [convertMap_eq_map _ h]
    simp [GoMap.keys]
  refine ⟨valuesFor_raw_published b frame, hk, ?_, ?_, rfl⟩
  · intro k
    rw [convertMap_eq_map _ h, GoMap.get_map_str]
  · unfold GoMap.WF
    rw [hk]
    exact h

/-- Witness of C5 on the off-peak frame, whose BASE and IINST do not
parse. -/
theorem raw_is_field_mapping_witness :
    offPeakFrame.GetMap.WF ∧
      valuesFor "raw" (published build64 offPeakFrame) =
        [.object [("ADCO", .str "012345678901"), ("OPTARIF", .str "HC.."),
          ("HCHC", .str "000111222"), ("HCHP", .str "000333444"), ("IINST", .str "0x3"),
          ("PAPP", .str "00720")]] :=
  ⟨by decide, (raw_is_field_mapping build64 offPeakFrame (by decide)).1.trans (by decide)⟩

theorem projector_values_get_eq (b : Build) (t t' : EriaThing) (frame : Frame)
    (h : ∀ k, k ≠ "raw" → k ≠ "indexBase" → k ≠ "iinst" → k ≠ "papp" →
      t.values.get k = t'.values.get k) (k : String) :
    (projectFrame b t frame).values.get k = (projectFrame b t' frame).values.get k := by
  rw [projectFrame_values_get, projectFrame_values_get]
  by_cases h1 : "papp" = k
  · simp [h1]
  · by_cases h2 : "iinst" = k
    · simp [h1, h2]
    · by_cases h3 : "indexBase" = k
      · simp [h1, h2, h3]
      · by_cases h4 : "raw" = k
        · simp [h1, h2, h3, h4]
        · simp only [h1, h2, h3, h4, if_false]
          exact h k (fun e => h4 e.symm) (fun e => h3 e.symm) (fun e => h2 e.symm)
            (fun e => h1 e.symm)

theorem projector_values_get_other (b : Build) (frames : List Frame) (t : EriaThing)
    (k : String) (h1 : k ≠ "raw") (h2 : k ≠ "indexBase") (h3 : k ≠ "iinst") (h4 : k ≠ "papp") :
    (projector b t frames).values.get k = t.values.get k := by
  induction frames generalizing t with
  | nil => rfl
  | cons f rest ih =>
    show (projector b (projectFrame b t f) rest).values.get k = t.values.get k
    rw [ih, projectFrame_values_get]
    simp [h1.symm, h2.symm, h3.symm, h4.symm]

/-- C7: for every initial state of the thing and every non-empty sequence of
frames processed in order, the resulting values of raw, indexBase, iinst and
papp are those of the last frame (its whole field mapping and the integers
of its BASE, IINST and PAPP), whatever the initial state and the earlier
frames held; every value, under any name, is the one that processing the
last frame alone from that initial state gives, and a name other than the
four keeps its initial value. -/
theorem projector_last_write_wins (b : Build) (t : EriaThing) (frames : List Frame)
    (hne : frames ≠ []) :
    (projector b t frames).values.get "raw" =
        some (.object (convertMap (frames.getLast hne).GetMap)) ∧
      (projector b t frames).values.get "indexBase" =
        some (.integer (intField b (frames.getLast hne) "BASE")) ∧
      (projector b t frames).values.get "iinst" =
        some (.integer (intField b (frames.getLast hne) "IINST")) ∧
      (projector b t frames).values.get "papp" =
        some (.integer (intField b (frames.getLast hne) "PAPP")) ∧
      (∀ k, (projector b t frames).values.get k =
        (projectFrame b t (frames.getLast hne)).values.get k) ∧
      (∀ k, k ≠ "raw" → k ≠ "indexBase" → k ≠ "iinst" → k ≠ "papp" →
        (projector b t frames).values.get k = t.values.get k) := by
  have hsplit : projector b t frames =
      projectFrame b (projector b t frames.dropLast) (frames.getLast hne) := by
    conv_lhs => rw [← List.dropLast_append_getLast hne]
    rw [projector_append]
    rfl
  refine ⟨?_, ?_, ?_, ?_, ?_, ?_⟩
  · rw [hsplit, projectFrame_values_get]
    simp
  · rw [hsplit, projectFrame_values_get]
    simp [intField]
  · rw [hsplit, projectFrame_values_get]
    simp [intField]
  · rw [hsplit, projectFrame_values_get]
    simp [intField]
  · intro k
    rw [hsplit]
    apply projector_values_get_eq
    intro k' h1 h2 h3 h4
    exact projector_values_get_other b _ t k' h1 h2 h3 h4
  · intro k h1 h2 h3 h4
    exact projector_values_get_other b frames t k h1 h2 h3 h4

/-- Witness of C7: the thing built for the sample frame (seeds 1234567, 3,
720), after the sample frame, the off-peak frame and the 1500 VA frame,
holds the field mapping of the 1500 VA frame and 1234567, 7 and 1500. -/
theorem projector_last_write_wins_witness :
    [sampleFrame, offPeakFrame, loadedFrame] ≠ [] ∧
      (projector build64 (AddThing (setThings build64 sampleFrame))
          [sampleFrame, offPeakFrame, loadedFrame]).values.get "raw" =
        some (.object [("ADCO", .str "012345678901"), ("OPTARIF", .str "BASE"),
          ("BASE", .str "001234567"), ("IINST", .str "007"), ("PAPP", .str "01500")]) ∧
      (projector build64 (AddThing (setThings build64 sampleFrame))
          [sampleFrame, offPeakFrame, loadedFrame]).values.get "indexBase" =
        some (.integer 1234567) ∧
      (projector build64 (AddThing (setThings build64 sampleFrame))
          [sampleFrame, offPeakFrame, loadedFrame]).values.get "iinst" =
        some (.integer 7) ∧
      (projector build64 (AddThing (setThings build64 sampleFrame))
          [sampleFrame, offPeakFrame, loadedFrame]).values.get "papp" =
        some (.integer 1500) :=
  ⟨List.cons_ne_nil _ _,
    (projector_last_write_wins build64 (AddThing (setThings build64 sampleFrame))
      [sampleFrame, offPeakFrame, loadedFrame] (List.cons_ne_nil _ _)).1.trans (by decide),
    (projector_last_write_wins build64 (AddThing (setThings build64 sampleFrame))
      [sampleFrame, offPeakFrame, loadedFrame] (List.cons_ne_nil _ _)).2.1.trans (by decide),
    (projector_last_write_wins build64 (AddThing (setThings build64 sampleFrame))
      [sampleFrame, offPeakFrame, loadedFrame] (List.cons_ne_nil _ _)).2.2.1.trans (by decide),
    (projector_last_write_wins build64 (AddThing (setThings build64 sampleFrame))
      [sampleFrame, offPeakFrame, loadedFrame] (List.cons_ne_nil _ _)).2.2.2.1.trans (by decide)⟩

/-! ## The schema over the lifetime of the process -/

/-- C8: the thing that `main` serves carries the description `setThings`
built from the initial frame, whatever frames were read and projected
afterwards; no step of the projector changes the description of the thing it
updates, whatever the mode and type of the frames. -/
theorem schema_never_changes (b : Build) (initialFrame : Frame)
    (later : List (Except ReadError Frame)) :
    (∃ t, (main b (.ok ()) (.ok initialFrame) later).outcome = .serving t ∧
        t.td = setThings b initialFrame) ∧
      (∀ (t : EriaThing) (frames : List Frame), (projector b t frames).td = t.td) ∧
      (∀ (t : EriaThing) (frames : List Frame),
        (projector b t frames).td.properties.map Property.key =
          t.td.properties.map Property.key) := by
  refine ⟨⟨_, rfl, ?_⟩, fun t frames => projector_td b frames t, fun t frames => ?_⟩
  · rw [projector_td]
    rfl
  · rw [projector_td]

/-! ## Startup -/

/-- C9: if the first `ReadFrame` of `main` fails, `main` ends in a panic, and
its run holds no `setThings`, no server creation or start, no added thing,
no channel and no start of the ingestor or of the projector. -/
theorem main_first_read_fails (b : Build) (err : ReadError)
    (later : List (Except ReadError Frame)) :
    (main b (.ok ()) (.error err) later).outcome = .panicked ∧
      (main b (.ok ()) (.error err) later).actions =
        [.eriaInit, .loadConfig, .openPort, .newReader, .readFrame, .logPanic, .portClose,
          .logStopped] ∧
      (∀ (port : Except String Unit), ∀ a ∈ (main b port (.error err) later).actions,
        a ≠ .setThings ∧ a ≠ .newServer ∧ a ≠ .startServer ∧ a ≠ .addThing ∧
          a ≠ .goReadFrames ∧ a ≠ .goProjector) := by
  refine ⟨rfl, rfl, ?_⟩
  intro port a ha
  cases port with
  | error e =>
    simp [main] at ha
    rcases ha with rfl | rfl | rfl | rfl | rfl <;> simp
  | ok u =>
    simp [main, zlogPanicMsg] at ha
    rcases ha with rfl | rfl | rfl | rfl | rfl | rfl | rfl | rfl <;> simp

/-! ## Declared bounds -/

theorem intField_bounds (b : Build) (frame : Frame) (field : String) (M : Nat)
    (hM : M < 2 ^ 31) (h : ∀ v, frame.GetUIntField field = .ok v → v ≤ M) :
    0 ≤ intField b frame field ∧ intField b frame field ≤ (M : Int) := by
  have hpow : 2 ^ 31 ≤ 2 ^ (b.intSize.bits - 1) := by
    cases b.intSize <;> simp [IntSize.bits]
  unfold intField
  cases hr : frame.GetUIntField field with
  | error e =>
    have h0 : intOfUint b.intSize 0 = 0 := by
      cases b.intSize <;> simp [intOfUint, IntSize.bits]
    simp [dropError, h0]
  | ok v =>
    have hv : v ≤ M := h v hr
    have hlt : v < 2 ^ (b.intSize.bits - 1) := lt_of_le_of_lt hv (lt_of_lt_of_le hM hpow)
    simp only [dropError]
    rw [intOfUint_of_lt _ _ hlt]
    exact ⟨Int.ofNat_nonneg v, by exact_mod_cast hv⟩

/-- C10 as stated fails: for the historic BASE frame whose PAPP is 01500,
`setThings` seeds papp, declared with bounds 0 and 1000, with 1500, and the
projector publishes 1500 for papp. -/
theorem papp_exceeds_declared_bound :
    loadedFrame.Mode = "historic" ∧ loadedFrame.Type_ = "BASE" ∧
      loadedFrame.GetUIntField "PAPP" = .ok 1500 ∧
      (setThings build64 loadedFrame).properties = fullTariffSchema 1234567 7 1500 ∧
      valuesFor "papp" (published build64 loadedFrame) = [.integer 1500] ∧
      ¬ ((1500 : Int) ≤ 1000) := by
  decide

/-- C10, as amended: for every frame in which each of BASE, IINST and PAPP is
missing, non-numeric, or parses to a value no greater than the maximum
declared for its property (1000000000, 1000, 1000), every integer seed that
`setThings` gives lies within the bounds declared with it, and the values
the projector publishes for indexBase, iinst and papp lie in
[0, 1000000000], [0, 1000] and [0, 1000]. -/
theorem derived_values_within_bounds (b : Build) (frame : Frame)
    (hB : ∀ v, frame.GetUIntField "BASE" = .ok v → v ≤ 1000000000)
    (hI : ∀ v, frame.GetUIntField "IINST" = .ok v → v ≤ 1000)
    (hP : ∀ v, frame.GetUIntField "PAPP" = .ok v → v ≤ 1000) :
    (∀ p ∈ (setThings b frame).properties, ∀ (d : Int) (u : String) (lo hi : Int),
        p.data = .integer d u lo hi → lo ≤ d ∧ d ≤ hi) ∧
      (∃ x y z : Int,
        valuesFor "indexBase" (published b frame) = [.integer x] ∧
        valuesFor "iinst" (published b frame) = [.integer y] ∧
        valuesFor "papp" (published b frame) = [.integer z] ∧
        (0 ≤ x ∧ x ≤ 1000000000) ∧ (0 ≤ y ∧ y ≤ 1000) ∧ (0 ≤ z ∧ z ≤ 1000)) := by
  have bB := intField_bounds b frame "BASE" 1000000000 (by norm_num) hB
  have bI := intField_bounds b frame "IINST" 1000 (by norm_num) hI
  have bP := intField_bounds b frame "PAPP" 1000 (by norm_num) hP
  constructor
  · intro p hp d u lo hi hd
    by_cases hc : frame.Mode = "historic" ∧ frame.Type_ = "BASE"
    · have hprops := setThings_properties_full b frame hc.1 hc.2
      rw [hprops] at hp
      simp only [fullTariffSchema, List.mem_cons, List.mem_singleton, List.not_mem_nil,
        or_false] at hp
      rcases hp with rfl | rfl | rfl | rfl
      · simp [rawProperty] at hd
      · simp only [DataSchema.integer.injEq] at hd
        obtain ⟨rfl, -, rfl, rfl⟩ := hd
        exact_mod_cast bB
      · simp only [DataSchema.integer.injEq] at hd
        obtain ⟨rfl, -, rfl, rfl⟩ := hd
        exact_mod_cast bI
      · simp only [DataSchema.integer.injEq] at hd
        obtain ⟨rfl, -, rfl, rfl⟩ := hd
        exact_mod_cast bP
    · have hprops := setThings_properties_raw b frame hc
      rw [hprops] at hp
      simp only [rawOnlySchema, List.mem_singleton] at hp
      subst hp
      simp [rawProperty] at hd
  · exact ⟨_, _, _, valuesFor_published b frame "BASE" "indexBase" (by decide),
      valuesFor_published b frame "IINST" "iinst" (by decide),
      valuesFor_published b frame "PAPP" "papp" (by decide),
      by exact_mod_cast bB, by exact_mod_cast bI, by exact_mod_cast bP⟩

/-- Witness of C10 as amended, on the sample frame: seeds and published
values 1234567, 3 and 720. -/
theorem derived_values_within_bounds_witness :
    (∀ v, sampleFrame.GetUIntField "BASE" = .ok v → v ≤ 1000000000) ∧
      (∀ p ∈ (setThings build64 sampleFrame).properties, ∀ (d : Int) (u : String) (lo hi : Int),
        p.data = .integer d u lo hi → lo ≤ d ∧ d ≤ hi) :=
  have hB : ∀ v, sampleFrame.GetUIntField "BASE" = .ok v → v ≤ 1000000000 := by
    intro v hv
    have h0 : sampleFrame.GetUIntField "BASE" = .ok 1234567 := by decide
    rw [h0] at hv
    cases hv
    decide
  have hI : ∀ v, sampleFrame.GetUIntField "IINST" = .ok v → v ≤ 1000 := by
    intro v hv
    have h0 : sampleFrame.GetUIntField "IINST" = .ok 3 := by decide
    rw [h0] at hv
    cases hv
    decide
  have hP : ∀ v, sampleFrame.GetUIntField "PAPP" = .ok v → v ≤ 1000 := by
    intro v hv
    have h0 : sampleFrame.GetUIntField "PAPP" = .ok 720 := by decide
    rw [h0] at hv
    cases hv
    decide
  ⟨hB, (derived_values_within_bounds build64 sampleFrame hB hI hP).1⟩

end TicGateway
